import Mathlib

/-!
Verification of the training-orchestrator script `ex3_convnet.py` (HLCV_CNN).

The script is a linear PyTorch training job.  We shallow-embed the parts the
claims are about:

* the `ConvNet.__init__` layer-list construction (as a `Layer` list builder);
* the training/validation/early-stopping epoch loop, the post-loop
  save/reload, and the final test pass, as an explicit state machine.

All delegated (framework) computation — forward passes, gradients, the
optimizer's parameter update — is abstracted into `Stubs`: per-batch training
is a fallible function on an abstract parameter type `P`, and the per-batch
validation/test results (batch size, number of correct predictions) are given
per epoch.  Python floats are modelled as exact rationals (all the claims are
about comparisons and ratios of small integer counts).  `torch.save` /
`torch.load` are modelled as a last-write-wins association list keyed by
`FileName`; the three checkpoint file names of the script are mutually
distinct strings for every epoch count, which the `FileName` inductive
reflects.  Side effects that the claims mention but that live inside the
framework (entering evaluation mode, disabling gradient tracking, writing a
checkpoint, the validation/test passes) are recorded in an event trace in the
order the script performs them.
-/

namespace CNN

/-- One batch worth of delegated classification results: `size` is
`labels.size(0)` and `correct` is `(predicted == labels).sum().item()`. -/
structure Batch where
  size : Nat
  correct : Nat
deriving DecidableEq, Repr

/-- Layer descriptors for the modules appended in `ConvNet.__init__`. -/
inductive Layer where
  | conv2d (in_channels out_channels kernel_size stride padding : Nat)
  | batchNorm2d (num_features : Nat)
  | maxPool2d (kernel_size stride : Nat)
  | relu
  | dropout (p : ℚ)
  | flatten
  | linear (in_features out_features : Nat)
deriving DecidableEq, Repr

/-- The layer-list building loop of `ConvNet.__init__` (lines 144-171):
`layers` is the accumulated list, the `Nat` argument is the running
`self.input_size`, and each iteration appends conv / (batchnorm) / maxpool /
relu / (dropout) and carries the block's `out_channels` forward.  Returns the
final list together with the final `self.input_size`. -/
def buildLayers (hidden : List Nat) (input_size : Nat) (norm_layer : Bool)
    (drop_out : Option ℚ) (layers : List Layer) : List Layer × Nat :=
  match hidden with
  | [] => (layers, input_size)
  | h_size :: rest =>
    let layers := layers ++ [Layer.conv2d input_size h_size 3 1 1]
    let layers := if norm_layer then layers ++ [Layer.batchNorm2d h_size] else layers
    let layers := layers ++ [Layer.maxPool2d 2 2]
    let layers := layers ++ [Layer.relu]
    let layers :=
      match drop_out with
      | some p => layers ++ [Layer.dropout p]
      | none => layers
    buildLayers rest h_size norm_layer drop_out layers

/-- `ConvNet.__init__` (lines 144-179): runs `buildLayers` over
`hidden_layers[:5]`, then appends `Flatten` and a `Linear` from
`hidden_layers[-1]` to `num_classes`.  `hidden_layers[-1]` on an empty list
raises `IndexError`, modelled as `none`. -/
def ConvNet.init (input_size : Nat) (hidden_layers : List Nat) (num_classes : Nat)
    (norm_layer : Bool) (drop_out : Option ℚ) : Option (List Layer) :=
  match hidden_layers.getLast? with
  | none => none
  | some lastH =>
    some ((buildLayers (hidden_layers.take 5) input_size norm_layer drop_out []).1
      ++ [Layer.flatten, Layer.linear lastH num_classes])

/-- One convolution block as the spec/claim words describe it: a 3x3 stride-1
padding-1 convolution from `in_channels` to `out_channels`, a batch-norm
layer iff `norm_layer` is truthy, a 2x2 stride-2 max-pool, a ReLU, and a
dropout with probability `p` iff `drop_out` is not `None`.  Used only to
compare the claim's wording with `ConvNet.init`. -/
def specBlock (in_channels out_channels : Nat) (norm_layer : Bool)
    (drop_out : Option ℚ) : List Layer :=
  [Layer.conv2d in_channels out_channels 3 1 1]
  ++ (if norm_layer then [Layer.batchNorm2d out_channels] else [])
  ++ [Layer.maxPool2d 2 2, Layer.relu]
  ++ (match drop_out with
      | some p => [Layer.dropout p]
      | none => [])

/-- The three checkpoint file names the script writes.  In the source these
are the strings `f'{num_epochs}_early_stopping_model.pt'`,
`f'after_training_{num_epochs}epochs_model.pt'` and `'model.ckpt'`, which are
pairwise distinct for every epoch count and injective in the epoch count; the
inductive encodes exactly that name space. -/
inductive FileName where
  | earlyStopping (num_epochs : Nat)
  | afterTraining (num_epochs : Nat)
  | modelCkpt
deriving DecidableEq, Repr

/-- Side effects of the orchestrator, in program order.  `lrDecayEv` is the
`lr *= decay; update_lr(...)` step, `evalModeEv` is `model.eval()`,
`noGradEv` is entering `torch.no_grad()`, `valPassEv`/`testEv` record the
counters a pass ends with, `bestSaveEv` is the early-stopping checkpoint
write, `trainModeEv` is `model.train()`, `afterTrainSaveEv`/`bestLoadEv` are
the post-loop save and reload, and `ckptSaveEv` is the final
`torch.save(..., 'model.ckpt')`. -/
inductive Event where
  | lrDecayEv (epoch : Nat)
  | evalModeEv
  | noGradEv
  | valPassEv (epoch correct total : Nat)
  | bestSaveEv (epoch : Nat)
  | trainModeEv
  | afterTrainSaveEv
  | bestLoadEv
  | testEv (correct total : Nat)
  | ckptSaveEv
deriving DecidableEq, Repr

/-- Errors a run can end with: an exception from a delegated stub call, or
the `FileNotFoundError` raised by `torch.load` on a missing checkpoint. -/
inductive RunError (E : Type) where
  | stub (e : E)
  | fileNotFound (name : FileName)
deriving DecidableEq, Repr

/-- Run configuration (the hyper-parameters the claims mention). -/
structure Config where
  num_epochs : Nat
  e_stop : Bool
  learning_rate : ℚ
  learning_rate_decay : ℚ
deriving Repr

/-- Deterministic delegated stubs.  `trainBatch epoch i p` is the net effect
on the parameters of one forward/loss/backward/step on training batch `i` of
epoch `epoch` (an exception inside any of those calls is `Except.error`);
`valBatches epoch` are the per-batch validation results of that epoch's
model; `testBatches` the per-batch test results. -/
structure Stubs (P E : Type) where
  initParams : P
  numParamGroups : Nat
  numTrainBatches : Nat
  trainBatch : Nat → Nat → P → Except E P
  valBatches : Nat → List Batch
  testBatches : List Batch

/-- Orchestrator state: the `lr` variable, `best_validation_acc`, the
optimizer's per-parameter-group learning rates, the in-memory model
parameters, the checkpoint files written so far (most recent write first),
and the event trace. -/
structure RunState (P : Type) where
  lr : ℚ
  best_validation_acc : ℚ
  paramGroupLrs : List ℚ
  model : P
  files : List (FileName × P)
  events : List Event

/-- `update_lr` (lines 20-22): assigns `lr` to every optimizer parameter
group. -/
def update_lr (param_groups : List ℚ) (lr : ℚ) : List ℚ :=
  param_groups.map (fun _ => lr)

/-- The accuracy-accumulation loop shared by validation (lines 345-353) and
test: starting from counters `correct`, `total`, adds each batch's correct
count and size. -/
def accPass (batches : List Batch) (correct total : Nat) : Nat × Nat :=
  match batches with
  | [] => (correct, total)
  | b :: bs => accPass bs (correct + b.correct) (total + b.size)

/-- The test loop (lines 394-404): same accumulation, but after each batch
`if total == 1000: break`. -/
def testPass (batches : List Batch) (correct total : Nat) : Nat × Nat :=
  match batches with
  | [] => (correct, total)
  | b :: bs =>
    let correct := correct + b.correct
    let total := total + b.size
    if total = 1000 then (correct, total) else testPass bs correct total

/-- The inner training loop of one epoch (lines 321-334): batches are
processed strictly in sequence order, index `i` counting up; any exception
aborts the loop.  The second `Nat` is the number of batches remaining. -/
def runTrainBatchesAux (S : Stubs P E) (epoch : Nat) : Nat → Nat → P → Except E P
  | _, 0, p => Except.ok p
  | i, r + 1, p =>
    match S.trainBatch epoch i p with
    | Except.error e => Except.error e
    | Except.ok q => runTrainBatchesAux S epoch (i + 1) r q

/-- All training batches of one epoch. -/
def runTrainBatches (S : Stubs P E) (epoch : Nat) (p : P) : Except E P :=
  runTrainBatchesAux S epoch 0 S.numTrainBatches p

/-- `f'{num_epochs}_early_stopping_model.pt'` (line 367 / 391). -/
def bestFileName (cfg : Config) : FileName :=
  FileName.earlyStopping cfg.num_epochs

/-- `f'after_training_{num_epochs}epochs_model.pt'` (line 389). -/
def afterTrainFileName (cfg : Config) : FileName :=
  FileName.afterTraining cfg.num_epochs

/-- `torch.load` from the files written so far: the most recent write under
`name`, or a `FileNotFoundError` if the run never wrote `name`. -/
def lookupFile (files : List (FileName × P)) (name : FileName) : Option P :=
  match files with
  | [] => none
  | (n, p) :: fs => if n = name then some p else lookupFile fs name

/-- Initial orchestrator state (lines 310-319): the optimizer is created
with `lr = learning_rate` on all of its parameter groups, `lr` starts at
`learning_rate`, `best_validation_acc = 0.0`, no files written. -/
def initState (S : Stubs P E) (cfg : Config) : RunState P :=
  { lr := cfg.learning_rate
    best_validation_acc := 0
    paramGroupLrs := List.replicate S.numParamGroups cfg.learning_rate
    model := S.initParams
    files := []
    events := [] }

/-- One iteration of the epoch loop (lines 320-378): train all batches,
decay `lr` and push it to every parameter group, enter eval mode and
`no_grad`, run the validation pass from zeroed counters, then — if early
stopping is enabled and `correct / total` strictly exceeds
`best_validation_acc` — update the best record and save the current model
under the early-stopping file name; finally return to training mode. -/
def epochStep (S : Stubs P E) (cfg : Config) (epoch : Nat) (st : RunState P) :
    Except (RunError E) (RunState P) :=
  match runTrainBatches S epoch st.model with
  | Except.error e => Except.error (RunError.stub e)
  | Except.ok model =>
    let lr := st.lr * cfg.learning_rate_decay
    let paramGroupLrs := update_lr st.paramGroupLrs lr
    let ct := accPass (S.valBatches epoch) 0 0
    let evs := st.events ++ [Event.lrDecayEv epoch, Event.evalModeEv, Event.noGradEv,
                             Event.valPassEv epoch ct.1 ct.2]
    if cfg.e_stop then
      let current_epoch_val_acc : ℚ := (ct.1 : ℚ) / (ct.2 : ℚ)
      if st.best_validation_acc < current_epoch_val_acc then
        Except.ok { lr := lr, best_validation_acc := current_epoch_val_acc,
                    paramGroupLrs := paramGroupLrs, model := model,
                    files := (bestFileName cfg, model) :: st.files,
                    events := evs ++ [Event.bestSaveEv epoch, Event.trainModeEv] }
      else
        Except.ok { lr := lr, best_validation_acc := st.best_validation_acc,
                    paramGroupLrs := paramGroupLrs, model := model,
                    files := st.files, events := evs ++ [Event.trainModeEv] }
    else
      Except.ok { lr := lr, best_validation_acc := st.best_validation_acc,
                  paramGroupLrs := paramGroupLrs, model := model,
                  files := st.files, events := evs ++ [Event.trainModeEv] }

/-- The first `k` iterations of the epoch loop, starting from `initState`. -/
def runEpochs (S : Stubs P E) (cfg : Config) : Nat → Except (RunError E) (RunState P)
  | 0 => Except.ok (initState S cfg)
  | n + 1 =>
    match runEpochs S cfg n with
    | Except.error ε => Except.error ε
    | Except.ok st => epochStep S cfg n st

/-- Everything after the epoch loop (lines 382-414): `model.eval()`; if early
stopping is on, save the current parameters under the after-training name and
reload the early-stopping checkpoint (overwriting the in-memory parameters);
then under `no_grad` run the truncating test pass from zeroed counters; and
finally save `model.ckpt`.  Returns the final state with the test counters. -/
def postLoop (S : Stubs P E) (cfg : Config) (st0 : RunState P) :
    Except (RunError E) (RunState P × Nat × Nat) :=
  let st0 := { st0 with events := st0.events ++ [Event.evalModeEv] }
  let reloaded : Except (RunError E) (RunState P) :=
    if cfg.e_stop then
      let stA : RunState P :=
        { st0 with files := (afterTrainFileName cfg, st0.model) :: st0.files,
                   events := st0.events ++ [Event.afterTrainSaveEv] }
      match lookupFile stA.files (bestFileName cfg) with
      | some best =>
        Except.ok { stA with model := best, events := stA.events ++ [Event.bestLoadEv] }
      | none => Except.error (RunError.fileNotFound (bestFileName cfg))
    else Except.ok st0
  match reloaded with
  | Except.error ε => Except.error ε
  | Except.ok st1 =>
    let ct := testPass S.testBatches 0 0
    let st2 := { st1 with events := st1.events ++ [Event.noGradEv, Event.testEv ct.1 ct.2] }
    let st3 := { st2 with files := (FileName.modelCkpt, st2.model) :: st2.files,
                          events := st2.events ++ [Event.ckptSaveEv] }
    Except.ok (st3, ct.1, ct.2)

/-- The whole orchestrator run (lines 317-414). -/
def run (S : Stubs P E) (cfg : Config) : Except (RunError E) (RunState P × Nat × Nat) :=
  match runEpochs S cfg cfg.num_epochs with
  | Except.error ε => Except.error ε
  | Except.ok st => postLoop S cfg st

/-- Modelled from the spec: the process exit code is not in `src/` — "uncaught
exceptions from any delegated call propagate and terminate the process with a
non-zero code (default language runtime behavior)"; normal completion exits
with code 0. -/
def exitCode {ε α : Type} : Except ε α → Nat
  | Except.ok _ => 0
  | Except.error _ => 1

/-- The correct-count the validation pass of epoch `k` ends with. -/
def valCorrect (S : Stubs P E) (k : Nat) : Nat :=
  (accPass (S.valBatches k) 0 0).1

/-- The total-count the validation pass of epoch `k` ends with. -/
def valTotal (S : Stubs P E) (k : Nat) : Nat :=
  (accPass (S.valBatches k) 0 0).2

/-- Validation accuracy of epoch `k` (`correct / total`, exact rationals). -/
def accAt (S : Stubs P E) (k : Nat) : ℚ :=
  (valCorrect S k : ℚ) / (valTotal S k : ℚ)

/-- The value of `best_validation_acc` entering epoch `k` when early stopping
is on: `0.0` initially, then the running maximum of the epoch accuracies. -/
def bestSpec (S : Stubs P E) : Nat → ℚ
  | 0 => 0
  | k + 1 => max (bestSpec S k) (accAt S k)

/-- The events one epoch-loop iteration appends. -/
def epochBlock (S : Stubs P E) (cfg : Config) (k : Nat) : List Event :=
  [Event.lrDecayEv k, Event.evalModeEv, Event.noGradEv,
   Event.valPassEv k (valCorrect S k) (valTotal S k)]
  ++ (if cfg.e_stop ∧ bestSpec S k < accAt S k then [Event.bestSaveEv k] else [])
  ++ [Event.trainModeEv]

/-- The events the first `k` epoch-loop iterations append. -/
def eventsSpec (S : Stubs P E) (cfg : Config) (k : Nat) : List Event :=
  ((List.range k).map (epochBlock S cfg)).flatten

/-- The events the post-loop phase appends. -/
def postBlock (cfg : Config) (correct total : Nat) : List Event :=
  [Event.evalModeEv]
  ++ (if cfg.e_stop then [Event.afterTrainSaveEv, Event.bestLoadEv] else [])
  ++ [Event.noGradEv, Event.testEv correct total, Event.ckptSaveEv]

/-- How many of the first `k` epochs update the best-checkpoint record. -/
def updCount (S : Stubs P E) (cfg : Config) (k : Nat) : Nat :=
  ((List.range k).filter
    (fun j => decide (cfg.e_stop ∧ bestSpec S j < accAt S j))).length

/-- The model parameters after the training batches of the first `k` epochs. -/
def modelAfter (S : Stubs P E) : Nat → Except E P
  | 0 => Except.ok S.initParams
  | k + 1 =>
    match modelAfter S k with
    | Except.error e => Except.error e
    | Except.ok p => runTrainBatches S k p

/-- Epoch indices of the validation-pass events in a trace, in order. -/
def valEpochs (evs : List Event) : List Nat :=
  evs.filterMap (fun ev =>
    match ev with
    | Event.valPassEv k _ _ => some k
    | _ => none)

/-- Epoch indices of the learning-rate decay events in a trace, in order. -/
def decayEpochs (evs : List Event) : List Nat :=
  evs.filterMap (fun ev =>
    match ev with
    | Event.lrDecayEv k => some k
    | _ => none)

/-- Projection for closed corollaries: how often a finished run saved the
best checkpoint for epoch `k`. -/
def bestSaveCount (k : Nat) : Except (RunError E) (RunState P × Nat × Nat) → Option Nat
  | Except.ok r => some (r.1.events.count (Event.bestSaveEv k))
  | Except.error _ => none

/-- Projection for closed corollaries: the `lr` variable after a finished
epoch loop. -/
def lrOf : Except (RunError E) (RunState P) → Option ℚ
  | Except.ok st => some st.lr
  | Except.error _ => none

/-- Projection for closed corollaries: the validation-pass epochs of a
finished run's trace. -/
def valEpochsOf : Except (RunError E) (RunState P × Nat × Nat) → Option (List Nat)
  | Except.ok r => some (valEpochs r.1.events)
  | Except.error _ => none

/-- Projection for closed corollaries: a finished run's `model.ckpt` holds
the parameters the run ends with. -/
def ckptHoldsFinal : Except (RunError E) (RunState P × Nat × Nat) → Prop
  | Except.ok r => lookupFile r.1.files FileName.modelCkpt = some r.1.model
  | Except.error _ => False

/-! Concrete deterministic stub instantiations, used to evaluate the
theorems on closed runs.  Parameters are `Nat` (a counter incremented by
every training batch, so distinct training prefixes give distinct
parameter snapshots). -/

/-- Two epochs, early stopping on, `lr = 2e-3`, `decay = 0.95`. -/
def cfgAcc : Config :=
  { num_epochs := 2, e_stop := true, learning_rate := 1 / 500,
    learning_rate_decay := 19 / 20 }

/-- Validation accuracies `100/200 = 0.5` then `50/200 = 0.25`; six test
batches of 200 examples each. -/
def Sacc : Stubs Nat Unit :=
  { initParams := 0
    numParamGroups := 1
    numTrainBatches := 2
    trainBatch := fun _ _ p => Except.ok (p + 1)
    valBatches := fun k => if k = 0 then [⟨200, 100⟩] else [⟨200, 50⟩]
    testBatches := [⟨200, 120⟩, ⟨200, 130⟩, ⟨200, 110⟩, ⟨200, 100⟩, ⟨200, 140⟩, ⟨200, 90⟩] }

/-- The C7 scenario configuration: `{epochs = 2, decay = 0.95, early_stop = true}`. -/
def cfg7 : Config :=
  { num_epochs := 2, e_stop := true, learning_rate := 1 / 500,
    learning_rate_decay := 19 / 20 }

/-- The C7 scenario stubs: validation accuracies `110/200 = 0.55` then
`80/200 = 0.40`; three training batches per epoch, so the parameters are `3`
after epoch 0 and `6` after epoch 1. -/
def S7 : Stubs Nat Unit :=
  { initParams := 0
    numParamGroups := 1
    numTrainBatches := 3
    trainBatch := fun _ _ p => Except.ok (p + 1)
    valBatches := fun k => if k = 0 then [⟨200, 110⟩] else [⟨200, 80⟩]
    testBatches := [⟨200, 120⟩, ⟨200, 130⟩, ⟨200, 110⟩, ⟨200, 100⟩, ⟨200, 140⟩, ⟨200, 90⟩] }

/-- One epoch, early stopping on. -/
def cfgZ : Config :=
  { num_epochs := 1, e_stop := true, learning_rate := 1 / 500,
    learning_rate_decay := 19 / 20 }

/-- Every validation accuracy is `0/200 = 0`. -/
def Sz : Stubs Nat Unit :=
  { initParams := 0
    numParamGroups := 1
    numTrainBatches := 1
    trainBatch := fun _ _ p => Except.ok (p + 1)
    valBatches := fun _ => [⟨200, 0⟩]
    testBatches := [⟨200, 120⟩, ⟨200, 130⟩, ⟨200, 110⟩, ⟨200, 100⟩, ⟨200, 140⟩, ⟨200, 90⟩] }

/-- Two epochs, early stopping on. -/
def cfgZ01 : Config :=
  { num_epochs := 2, e_stop := true, learning_rate := 1 / 500,
    learning_rate_decay := 19 / 20 }

/-- Validation accuracies `0/200 = 0` then `100/200 = 1/2`. -/
def Sz01 : Stubs Nat Unit :=
  { initParams := 0
    numParamGroups := 1
    numTrainBatches := 1
    trainBatch := fun _ _ p => Except.ok (p + 1)
    valBatches := fun k => if k = 0 then [⟨200, 0⟩] else [⟨200, 100⟩]
    testBatches := [⟨200, 120⟩, ⟨200, 130⟩, ⟨200, 110⟩, ⟨200, 100⟩, ⟨200, 140⟩, ⟨200, 90⟩] }

/-- One epoch. -/
def cfgF : Config :=
  { num_epochs := 1, e_stop := true, learning_rate := 1 / 500,
    learning_rate_decay := 19 / 20 }

/-- Stubs whose very first training batch raises (error code `7`). -/
def Sfail : Stubs Nat Nat :=
  { initParams := 0
    numParamGroups := 1
    numTrainBatches := 1
    trainBatch := fun _ _ _ => Except.error 7
    valBatches := fun _ => [⟨200, 100⟩]
    testBatches := [⟨200, 120⟩, ⟨200, 130⟩, ⟨200, 110⟩, ⟨200, 100⟩, ⟨200, 140⟩, ⟨200, 90⟩] }

/-! ## Structural lemmas about the epoch loop -/

theorem eventsSpec_zero (S : Stubs P E) (cfg : Config) : eventsSpec S cfg 0 = [] := rfl

theorem eventsSpec_succ (S : Stubs P E) (cfg : Config) (k : Nat) :
    eventsSpec S cfg (k + 1) = eventsSpec S cfg k ++ epochBlock S cfg k := by
  simp [eventsSpec, List.range_succ]

theorem updCount_zero (S : Stubs P E) (cfg : Config) : updCount S cfg 0 = 0 := rfl

theorem updCount_succ (S : Stubs P E) (cfg : Config) (k : Nat) :
    updCount S cfg (k + 1)
      = updCount S cfg k + (if cfg.e_stop ∧ bestSpec S k < accAt S k then 1 else 0) := by
  simp only [updCount, List.range_succ, List.filter_append, List.length_append]
  congr 1
  by_cases h : cfg.e_stop ∧ bestSpec S k < accAt S k <;> simp [h]

/-- Unfolding one successful epoch-loop iteration, assuming the incoming
best-so-far value is the one the first `k` epochs produce. -/
theorem epochStep_ok (S : Stubs P E) (cfg : Config) (k : Nat) (st st' : RunState P)
    (hbest : st.best_validation_acc = (if cfg.e_stop then bestSpec S k else 0))
    (h : epochStep S cfg k st = Except.ok st') :
    runTrainBatches S k st.model = Except.ok st'.model ∧
    st'.events = st.events ++ epochBlock S cfg k ∧
    st'.best_validation_acc = (if cfg.e_stop then bestSpec S (k + 1) else 0) ∧
    st'.lr = st.lr * cfg.learning_rate_decay ∧
    st'.paramGroupLrs = update_lr st.paramGroupLrs (st.lr * cfg.learning_rate_decay) ∧
    st'.files = (if cfg.e_stop ∧ bestSpec S k < accAt S k
                 then (bestFileName cfg, st'.model) :: st.files else st.files) := by
  rw [epochStep] at h
  cases hT : runTrainBatches S k st.model with
  | error e => rw [hT] at h; cases h
  | ok m =>
    rw [hT] at h
    cases he : cfg.e_stop with
    | false =>
      simp only [he, Bool.false_eq_true, if_false] at h
      cases h
      simp [epochBlock, he, accAt, valCorrect, valTotal, hbest]
    | true =>
      simp only [he, if_true] at h
      rw [he] at hbest
      simp only [if_true] at hbest
      by_cases hlt : st.best_validation_acc
          < ((accPass (S.valBatches k) 0 0).1 : ℚ) / ((accPass (S.valBatches k) 0 0).2 : ℚ)
      · rw [if_pos hlt] at h
        cases h
        have hlt2 : bestSpec S k
            < ((accPass (S.valBatches k) 0 0).1 : ℚ) / ((accPass (S.valBatches k) 0 0).2 : ℚ) := by
          rw [← hbest]; exact hlt
        have hmax : bestSpec S (k + 1)
            = ((accPass (S.valBatches k) 0 0).1 : ℚ) / ((accPass (S.valBatches k) 0 0).2 : ℚ) := by
          rw [bestSpec]
          simp only [accAt, valCorrect, valTotal]
          exact max_eq_right (le_of_lt hlt2)
        simp [epochBlock, he, hlt2, hmax, accAt, valCorrect, valTotal]
      · rw [if_neg hlt] at h
        cases h
        have hnlt2 : ¬ bestSpec S k
            < ((accPass (S.valBatches k) 0 0).1 : ℚ) / ((accPass (S.valBatches k) 0 0).2 : ℚ) := by
          rw [← hbest]; exact hlt
        have hmax : bestSpec S (k + 1) = bestSpec S k := by
          rw [bestSpec]
          simp only [accAt, valCorrect, valTotal]
          exact max_eq_left (not_lt.mp hnlt2)
        simp [epochBlock, he, hnlt2, hmax, hbest, accAt, valCorrect, valTotal]

/-- Invariant of the epoch loop: after `k` successful iterations the trace,
the best-so-far record, the learning rate, the parameter-group rates, the
model parameters and the written file names are all determined by the stubs
and the configuration. -/
theorem runEpochs_ok (S : Stubs P E) (cfg : Config) :
    ∀ (k : Nat) (st : RunState P), runEpochs S cfg k = Except.ok st →
    st.events = eventsSpec S cfg k ∧
    st.best_validation_acc = (if cfg.e_stop then bestSpec S k else 0) ∧
    st.lr = cfg.learning_rate * cfg.learning_rate_decay ^ k ∧
    st.paramGroupLrs
      = List.replicate S.numParamGroups (cfg.learning_rate * cfg.learning_rate_decay ^ k) ∧
    modelAfter S k = Except.ok st.model ∧
    st.files.map Prod.fst = List.replicate (updCount S cfg k) (bestFileName cfg) := by
  intro k
  induction k with
  | zero =>
    intro st h
    rw [runEpochs] at h
    cases h
    refine ⟨rfl, ?_, by simp [initState], by simp [initState], rfl,
      by simp [initState, updCount]⟩
    cases cfg.e_stop <;> simp [initState, bestSpec]
  | succ k ih =>
    intro st h
    rw [runEpochs] at h
    cases hK : runEpochs S cfg k with
    | error ε => rw [hK] at h; cases h
    | ok stK =>
      rw [hK] at h
      obtain ⟨hev, hbest, hlr, hgroups, hmodel, hfiles⟩ := ih stK hK
      obtain ⟨hT, hev', hbest', hlr', hgroups', hfiles'⟩ := epochStep_ok S cfg k stK st hbest h
      refine ⟨?_, hbest', ?_, ?_, ?_, ?_⟩
      · rw [hev', hev, eventsSpec_succ]
      · rw [hlr', hlr, pow_succ, mul_assoc]
      · rw [hgroups', hgroups, update_lr, List.map_replicate, hlr, pow_succ, mul_assoc]
      · rw [modelAfter, hmodel]; exact hT
      · rw [hfiles', updCount_succ]
        by_cases hc : cfg.e_stop ∧ bestSpec S k < accAt S k
        · simp [hc, hfiles, List.replicate_succ]
        · simp [hc, hfiles]

/-! ## Structural lemmas about the post-loop phase -/

theorem lookupFile_cons_ne {P : Type} (n name : FileName) (p : P) (fs : List (FileName × P))
    (h : n ≠ name) : lookupFile ((n, p) :: fs) name = lookupFile fs name := by
  simp [lookupFile, h]

theorem afterTrain_ne_best (cfg : Config) : afterTrainFileName cfg ≠ bestFileName cfg := by
  simp [afterTrainFileName, bestFileName]

/-- Unfolding a successful post-loop phase. -/
theorem postLoop_ok (S : Stubs P E) (cfg : Config) (st0 : RunState P)
    (r : RunState P × Nat × Nat) (h : postLoop S cfg st0 = Except.ok r) :
    r.2 = testPass S.testBatches 0 0 ∧
    r.1.events = st0.events ++ postBlock cfg r.2.1 r.2.2 ∧
    r.1.best_validation_acc = st0.best_validation_acc ∧
    (cfg.e_stop = true →
      ∃ best, lookupFile st0.files (bestFileName cfg) = some best ∧
        r.1.model = best ∧
        r.1.files = (FileName.modelCkpt, best) ::
          (afterTrainFileName cfg, st0.model) :: st0.files) ∧
    (cfg.e_stop = false →
      r.1.model = st0.model ∧
      r.1.files = (FileName.modelCkpt, st0.model) :: st0.files) := by
  rw [postLoop] at h
  cases he : cfg.e_stop with
  | false =>
    simp only [he, Bool.false_eq_true, if_false] at h
    cases h
    simp [postBlock, he]
  | true =>
    simp only [he, if_true] at h
    rw [lookupFile_cons_ne _ _ _ _ (afterTrain_ne_best cfg)] at h
    cases hL : lookupFile st0.files (bestFileName cfg) with
    | none => rw [hL] at h; cases h
    | some best =>
      rw [hL] at h
      cases h
      refine ⟨rfl, ?_, rfl, fun _ => ⟨best, hL ▸ rfl, rfl, rfl⟩, fun hf => by simp [he] at hf⟩
      simp [postBlock, he]

/-- A missing early-stopping checkpoint makes the post-loop reload fail. -/
theorem postLoop_fileNotFound (S : Stubs P E) (cfg : Config) (st0 : RunState P)
    (he : cfg.e_stop = true)
    (hnone : lookupFile st0.files (bestFileName cfg) = none) :
    postLoop S cfg st0 = Except.error (RunError.fileNotFound (bestFileName cfg)) := by
  rw [postLoop]
  simp only [he, if_true]
  rw [lookupFile_cons_ne _ _ _ _ (afterTrain_ne_best cfg), hnone]

/-- A successful run is a successful epoch loop followed by a successful
post-loop phase. -/
theorem run_ok_decomp (S : Stubs P E) (cfg : Config) (r : RunState P × Nat × Nat)
    (h : run S cfg = Except.ok r) :
    ∃ stL, runEpochs S cfg cfg.num_epochs = Except.ok stL ∧
      postLoop S cfg stL = Except.ok r := by
  rw [run] at h
  cases hK : runEpochs S cfg cfg.num_epochs with
  | error ε => rw [hK] at h; cases h
  | ok stL => rw [hK] at h; exact ⟨stL, rfl, h⟩

/-- Once the epoch loop has failed it stays failed. -/
theorem runEpochs_error_mono (S : Stubs P E) (cfg : Config) (k : Nat) (ε : RunError E)
    (h : runEpochs S cfg k = Except.error ε) :
    ∀ m, k ≤ m → runEpochs S cfg m = Except.error ε := by
  intro m
  induction m with
  | zero =>
    intro hm
    have : k = 0 := Nat.le_zero.mp hm
    rw [← this]; exact h
  | succ m ih =>
    intro hm
    rcases Nat.eq_or_lt_of_le hm with hkm | hkm
    · rw [hkm] at h; exact h
    · rw [runEpochs, ih (Nat.lt_succ_iff.mp hkm)]

/-- A failed epoch loop fails the whole run with the same error. -/
theorem run_error_of_runEpochs (S : Stubs P E) (cfg : Config) (ε : RunError E)
    (h : runEpochs S cfg cfg.num_epochs = Except.error ε) :
    run S cfg = Except.error ε := by
  rw [run, h]

/-! ## Counting events in the epoch-loop trace -/

theorem count_bestSave_epochBlock (S : Stubs P E) (cfg : Config) (j k : Nat) :
    (epochBlock S cfg k).count (Event.bestSaveEv j)
      = if j = k ∧ cfg.e_stop ∧ bestSpec S k < accAt S k then 1 else 0 := by
  by_cases hc : cfg.e_stop ∧ bestSpec S k < accAt S k
  · by_cases hj : j = k <;>
      simp [epochBlock, hc, hj, List.count_append, List.count_cons, List.count_nil]
  · have hcj : ¬ (j = k ∧ cfg.e_stop ∧ bestSpec S k < accAt S k) := fun hx => hc hx.2
    simp [epochBlock, hc, hcj, List.count_append, List.count_cons, List.count_nil]

theorem count_bestSave_eventsSpec (S : Stubs P E) (cfg : Config) (j : Nat) : ∀ k,
    (eventsSpec S cfg k).count (Event.bestSaveEv j)
      = if j < k ∧ cfg.e_stop ∧ bestSpec S j < accAt S j then 1 else 0 := by
  intro k
  induction k with
  | zero => simp [eventsSpec_zero]
  | succ k ih =>
    rw [eventsSpec_succ, List.count_append, ih, count_bestSave_epochBlock]
    by_cases hj : j = k
    · subst hj
      by_cases hc : cfg.e_stop ∧ bestSpec S j < accAt S j <;> simp [hc]
    · have hiff : (j < k + 1) ↔ (j < k) := by omega
      by_cases hjk : j < k <;>
        by_cases hc : cfg.e_stop ∧ bestSpec S j < accAt S j <;>
          simp [hj, hjk, hc, hiff]

theorem count_bestSave_postBlock (cfg : Config) (j c t : Nat) :
    (postBlock cfg c t).count (Event.bestSaveEv j) = 0 := by
  cases he : cfg.e_stop <;>
    simp [postBlock, he, List.count_append, List.count_cons, List.count_nil]

theorem count_lrDecay_epochBlock (S : Stubs P E) (cfg : Config) (j k : Nat) :
    (epochBlock S cfg k).count (Event.lrDecayEv j) = if j = k then 1 else 0 := by
  by_cases hj : j = k <;>
    by_cases hc : cfg.e_stop ∧ bestSpec S k < accAt S k <;>
      simp [epochBlock, hj, hc, List.count_append, List.count_cons, List.count_nil]

theorem count_lrDecay_eventsSpec (S : Stubs P E) (cfg : Config) (j : Nat) : ∀ k,
    (eventsSpec S cfg k).count (Event.lrDecayEv j) = if j < k then 1 else 0 := by
  intro k
  induction k with
  | zero => simp [eventsSpec_zero]
  | succ k ih =>
    rw [eventsSpec_succ, List.count_append, ih, count_lrDecay_epochBlock]
    by_cases hj : j = k
    · subst hj; simp
    · have hiff : (j < k + 1) ↔ (j < k) := by omega
      by_cases hjk : j < k <;> simp [hj, hjk, hiff]

theorem count_lrDecay_postBlock (cfg : Config) (j c t : Nat) :
    (postBlock cfg c t).count (Event.lrDecayEv j) = 0 := by
  cases he : cfg.e_stop <;>
    simp [postBlock, he, List.count_append, List.count_cons, List.count_nil]

/-- `best_validation_acc` entering epoch `k` is strictly below `q` exactly
when `q` is positive and strictly above every prior epoch accuracy. -/
theorem bestSpec_lt_iff (S : Stubs P E) (q : ℚ) : ∀ k,
    bestSpec S k < q ↔ (0 < q ∧ ∀ j, j < k → accAt S j < q) := by
  intro k
  induction k with
  | zero => simp [bestSpec]
  | succ k ih =>
    rw [bestSpec, max_lt_iff, ih]
    constructor
    · rintro ⟨⟨h0, hall⟩, hk⟩
      refine ⟨h0, fun j hj => ?_⟩
      rcases Nat.lt_succ_iff_lt_or_eq.mp hj with hj2 | hj2
      · exact hall j hj2
      · rw [hj2]; exact hk
    · rintro ⟨h0, hall⟩
      exact ⟨⟨h0, fun j hj => hall j (by omega)⟩, hall k (by omega)⟩

/-! ## Per-epoch shape of validation and decay events -/

theorem valEpochs_append (a b : List Event) :
    valEpochs (a ++ b) = valEpochs a ++ valEpochs b := by
  simp [valEpochs, List.filterMap_append]

theorem decayEpochs_append (a b : List Event) :
    decayEpochs (a ++ b) = decayEpochs a ++ decayEpochs b := by
  simp [decayEpochs, List.filterMap_append]

theorem valEpochs_epochBlock (S : Stubs P E) (cfg : Config) (k : Nat) :
    valEpochs (epochBlock S cfg k) = [k] := by
  by_cases hc : cfg.e_stop ∧ bestSpec S k < accAt S k <;>
    simp [epochBlock, valEpochs, hc]

theorem decayEpochs_epochBlock (S : Stubs P E) (cfg : Config) (k : Nat) :
    decayEpochs (epochBlock S cfg k) = [k] := by
  by_cases hc : cfg.e_stop ∧ bestSpec S k < accAt S k <;>
    simp [epochBlock, decayEpochs, hc]

theorem valEpochs_eventsSpec (S : Stubs P E) (cfg : Config) : ∀ k,
    valEpochs (eventsSpec S cfg k) = List.range k := by
  intro k
  induction k with
  | zero => simp [eventsSpec_zero, valEpochs]
  | succ k ih =>
    rw [eventsSpec_succ, valEpochs_append, ih, valEpochs_epochBlock, List.range_succ]

theorem decayEpochs_eventsSpec (S : Stubs P E) (cfg : Config) : ∀ k,
    decayEpochs (eventsSpec S cfg k) = List.range k := by
  intro k
  induction k with
  | zero => simp [eventsSpec_zero, decayEpochs]
  | succ k ih =>
    rw [eventsSpec_succ, decayEpochs_append, ih, decayEpochs_epochBlock, List.range_succ]

theorem valEpochs_postBlock (cfg : Config) (c t : Nat) :
    valEpochs (postBlock cfg c t) = [] := by
  cases he : cfg.e_stop <;> simp [postBlock, valEpochs, he]

theorem decayEpochs_postBlock (cfg : Config) (c t : Nat) :
    decayEpochs (postBlock cfg c t) = [] := by
  cases he : cfg.e_stop <;> simp [postBlock, decayEpochs, he]

/-- The accumulation loop adds up exactly the whole sequence. -/
theorem accPass_sums (bs : List Batch) : ∀ c t,
    accPass bs c t = (c + (bs.map Batch.correct).sum, t + (bs.map Batch.size).sum) := by
  induction bs with
  | nil => intro c t; simp [accPass]
  | cons b bs ih =>
    intro c t
    rw [accPass, ih]
    simp [List.sum_cons]
    omega

/-- Splitting the inner training loop at a batch index. -/
theorem runTrainBatchesAux_add (S : Stubs P E) (epoch : Nat) : ∀ (a i b : Nat) (p : P),
    runTrainBatchesAux S epoch i (a + b) p
      = match runTrainBatchesAux S epoch i a p with
        | Except.error e => Except.error e
        | Except.ok q => runTrainBatchesAux S epoch (i + a) b q := by
  intro a
  induction a with
  | zero =>
    intro i b p
    simp [runTrainBatchesAux]
  | succ a ih =>
    intro i b p
    rw [show a + 1 + b = (a + b) + 1 from by omega]
    rw [runTrainBatchesAux]
    cases hT : S.trainBatch epoch i p with
    | error e =>
      rw [runTrainBatchesAux, hT]
    | ok q =>
      rw [runTrainBatchesAux, hT]
      dsimp only
      rw [ih]
      simp only [show i + 1 + a = i + (a + 1) from by omega]

/-! ## Saved checkpoint contents, totality, and run-level helpers -/

/-- Whatever `torch.load` finds under the early-stopping name after `k`
epochs was saved by some updating epoch `j < k`, and holds exactly the
parameters as they were after epoch `j`'s training batches. -/
theorem runEpochs_bestFile (S : Stubs P E) (cfg : Config) : ∀ (k : Nat) (st : RunState P),
    runEpochs S cfg k = Except.ok st →
    ∀ q, lookupFile st.files (bestFileName cfg) = some q →
    ∃ j, j < k ∧ (cfg.e_stop ∧ bestSpec S j < accAt S j) ∧
      modelAfter S (j + 1) = Except.ok q := by
  intro k
  induction k with
  | zero =>
    intro st h q hq
    rw [runEpochs] at h
    cases h
    simp [initState, lookupFile] at hq
  | succ k ih =>
    intro st h q hq
    rw [runEpochs] at h
    cases hK : runEpochs S cfg k with
    | error ε => rw [hK] at h; cases h
    | ok stK =>
      rw [hK] at h
      obtain ⟨-, hbest, -, -, hmodel, -⟩ := runEpochs_ok S cfg k stK hK
      obtain ⟨hT, -, -, -, -, hfiles⟩ := epochStep_ok S cfg k stK st hbest h
      by_cases hc : cfg.e_stop ∧ bestSpec S k < accAt S k
      · rw [hfiles, if_pos hc, lookupFile, if_pos rfl] at hq
        injection hq with hq
        refine ⟨k, by omega, hc, ?_⟩
        rw [modelAfter, hmodel, ← hq]
        exact hT
      · rw [hfiles, if_neg hc] at hq
        obtain ⟨j, hj, hcj, hmj⟩ := ih stK hK q hq
        exact ⟨j, by omega, hcj, hmj⟩

/-- If no delegated training call ever raises, every inner training loop
completes. -/
theorem runTrainBatchesAux_total (S : Stubs P E) (epoch : Nat)
    (htotal : ∀ k i p, ∃ q, S.trainBatch k i p = Except.ok q) :
    ∀ (r i : Nat) (p : P), ∃ q, runTrainBatchesAux S epoch i r p = Except.ok q := by
  intro r
  induction r with
  | zero => intro i p; exact ⟨p, rfl⟩
  | succ r ih =>
    intro i p
    obtain ⟨q, hq⟩ := htotal epoch i p
    obtain ⟨q2, hq2⟩ := ih (i + 1) q
    refine ⟨q2, ?_⟩
    rw [runTrainBatchesAux, hq]
    exact hq2

/-- If no delegated training call ever raises, every epoch-loop iteration
completes. -/
theorem epochStep_total (S : Stubs P E) (cfg : Config) (k : Nat) (st : RunState P)
    (htotal : ∀ k i p, ∃ q, S.trainBatch k i p = Except.ok q) :
    ∃ st2, epochStep S cfg k st = Except.ok st2 := by
  obtain ⟨m, hm⟩ := runTrainBatchesAux_total S k htotal S.numTrainBatches 0 st.model
  rw [epochStep]
  rw [show runTrainBatches S k st.model = Except.ok m from hm]
  dsimp only
  split
  · split
    · exact ⟨_, rfl⟩
    · exact ⟨_, rfl⟩
  · exact ⟨_, rfl⟩

/-- If no delegated training call ever raises, the epoch loop completes. -/
theorem runEpochs_total (S : Stubs P E) (cfg : Config)
    (htotal : ∀ k i p, ∃ q, S.trainBatch k i p = Except.ok q) :
    ∀ k, ∃ st, runEpochs S cfg k = Except.ok st := by
  intro k
  induction k with
  | zero => exact ⟨_, rfl⟩
  | succ k ih =>
    obtain ⟨st, hst⟩ := ih
    obtain ⟨st2, hst2⟩ := epochStep_total S cfg k st htotal
    refine ⟨st2, ?_⟩
    rw [runEpochs, hst]
    exact hst2

/-- If the early-stopping checkpoint exists (or early stopping is off), the
post-loop phase completes. -/
theorem postLoop_total (S : Stubs P E) (cfg : Config) (st0 : RunState P)
    (hfound : cfg.e_stop = true → ∃ b, lookupFile st0.files (bestFileName cfg) = some b) :
    ∃ r, postLoop S cfg st0 = Except.ok r := by
  rw [postLoop]
  cases he : cfg.e_stop with
  | false => simp only [he, Bool.false_eq_true, if_false]; exact ⟨_, rfl⟩
  | true =>
    obtain ⟨b, hb⟩ := hfound he
    simp only [he, if_true]
    rw [lookupFile_cons_ne _ _ _ _ (afterTrain_ne_best cfg), hb]
    exact ⟨_, rfl⟩

/-- A nonempty all-`nm` file list resolves `nm`. -/
theorem lookupFile_of_replicate (files : List (FileName × P)) (nm : FileName) (n : Nat)
    (hmap : files.map Prod.fst = List.replicate n nm) (hn : n ≠ 0) :
    ∃ b, lookupFile files nm = some b := by
  cases files with
  | nil =>
    exfalso
    apply hn
    simpa [List.replicate_eq_nil_iff] using hmap.symm
  | cons f fs =>
    cases n with
    | zero => simp at hmap
    | succ n =>
      rw [List.replicate_succ] at hmap
      have hf : f.1 = nm := by
        have := List.head_eq_of_cons_eq (by simpa using hmap)
        simpa using this
      exact ⟨f.2, by rw [lookupFile, if_pos hf]⟩

/-- A witnessed updating epoch makes the update count positive. -/
theorem updCount_ne_zero_of (S : Stubs P E) (cfg : Config) (j : Nat)
    (hj : j < cfg.num_epochs) (hc : cfg.e_stop ∧ bestSpec S j < accAt S j) :
    updCount S cfg cfg.num_epochs ≠ 0 := by
  unfold updCount
  intro hlen
  rw [List.length_eq_zero] at hlen
  have hmem : j ∈ (List.range cfg.num_epochs).filter
      (fun j => decide (cfg.e_stop ∧ bestSpec S j < accAt S j)) :=
    List.mem_filter.mpr ⟨List.mem_range.mpr hj, by simpa using hc⟩
  rw [hlen] at hmem
  cases hmem

/-- If no delegated training call raises and some epoch updates the best
checkpoint, the whole run completes. -/
theorem run_total (S : Stubs P E) (cfg : Config)
    (htotal : ∀ k i p, ∃ q, S.trainBatch k i p = Except.ok q)
    (hupd : cfg.e_stop = true → updCount S cfg cfg.num_epochs ≠ 0) :
    ∃ r, run S cfg = Except.ok r := by
  obtain ⟨st, hst⟩ := runEpochs_total S cfg htotal cfg.num_epochs
  obtain ⟨-, -, -, -, -, hfiles⟩ := runEpochs_ok S cfg cfg.num_epochs st hst
  obtain ⟨r, hr⟩ := postLoop_total S cfg st
    (fun he => lookupFile_of_replicate st.files (bestFileName cfg) _ hfiles (hupd he))
  refine ⟨r, ?_⟩
  rw [run, hst]
  exact hr

/-- Any epoch's block can be isolated inside the loop trace. -/
theorem eventsSpec_split (S : Stubs P E) (cfg : Config) (k n : Nat) (h : k < n) :
    ∃ pre post, eventsSpec S cfg n = pre ++ (epochBlock S cfg k ++ post) := by
  obtain ⟨m, rfl⟩ : ∃ m, n = (k + 1) + m := ⟨n - (k + 1), by omega⟩
  refine ⟨eventsSpec S cfg k,
    ((List.range m).map (fun x => epochBlock S cfg (k + 1 + x))).flatten, ?_⟩
  rw [eventsSpec, List.range_add, List.map_append, List.flatten_append, List.map_map,
      ← eventsSpec, eventsSpec_succ, List.append_assoc]
  rfl

/-- An exception in training batch `j` of epoch `k` aborts the epoch's inner
loop with that exception. -/
theorem runTrainBatches_error (S : Stubs P E) (k j : Nat) (p0 p : P) (e : E)
    (hj : j < S.numTrainBatches)
    (hpart : runTrainBatchesAux S k 0 j p0 = Except.ok p)
    (hfail : S.trainBatch k j p = Except.error e) :
    runTrainBatches S k p0 = Except.error e := by
  rw [runTrainBatches]
  rw [show S.numTrainBatches = j + (S.numTrainBatches - j - 1 + 1) from by omega]
  rw [runTrainBatchesAux_add, hpart]
  dsimp only
  rw [show (0 : Nat) + j = j from by omega]
  rw [runTrainBatchesAux, hfail]

/-- The running best is never negative. -/
theorem bestSpec_nonneg (S : Stubs P E) : ∀ k, 0 ≤ bestSpec S k := by
  intro k
  induction k with
  | zero => simp [bestSpec]
  | succ k ih => rw [bestSpec]; exact le_trans ih (le_max_left _ _)

/-- With early stopping disabled no epoch ever updates. -/
theorem updCount_of_estop_false (S : Stubs P E) (cfg : Config) (hf : cfg.e_stop = false)
    (k : Nat) : updCount S cfg k = 0 := by
  unfold updCount
  rw [List.length_eq_zero]
  apply List.filter_eq_nil_iff.mpr
  intro j hj
  simp only [decide_eq_true_eq]
  rintro ⟨h1, -⟩
  rw [hf] at h1
  cases h1

/-- With all validation accuracies 0 no epoch ever updates. -/
theorem updCount_of_zero_acc (S : Stubs P E) (cfg : Config)
    (hacc : ∀ k, k < cfg.num_epochs → accAt S k = 0) :
    updCount S cfg cfg.num_epochs = 0 := by
  unfold updCount
  rw [List.length_eq_zero]
  apply List.filter_eq_nil_iff.mpr
  intro j hj
  rw [List.mem_range] at hj
  simp only [decide_eq_true_eq]
  rintro ⟨-, hlt⟩
  rw [hacc j hj] at hlt
  exact absurd hlt (not_lt.mpr (bestSpec_nonneg S j))

/-! ## Claim theorems -/

/-- **C4**: in every epoch, after that epoch's training batches, the learning
rate is multiplied exactly once by the fixed decay factor (one `lrDecayEv`
per completed epoch) and the new value is assigned uniformly to every
optimizer parameter group, so after `k` completed epochs every parameter
group's learning rate equals `learning_rate * decay ^ k`. -/
theorem lr_decay_uniform (S : Stubs P E) (cfg : Config) (k : Nat) (st : RunState P)
    (h : runEpochs S cfg k = Except.ok st) :
    st.lr = cfg.learning_rate * cfg.learning_rate_decay ^ k ∧
    (∀ q ∈ st.paramGroupLrs, q = cfg.learning_rate * cfg.learning_rate_decay ^ k) ∧
    (∀ j, st.events.count (Event.lrDecayEv j) = if j < k then 1 else 0) := by
  obtain ⟨hev, -, hlr, hgroups, -, -⟩ := runEpochs_ok S cfg k st h
  refine ⟨hlr, ?_, ?_⟩
  · intro q hq
    rw [hgroups] at hq
    exact (List.mem_replicate.mp hq).2
  · intro j
    rw [hev, count_lrDecay_eventsSpec]

theorem lr_decay_uniform_witness :
    lrOf (runEpochs Sacc cfgAcc 2)
      = some (cfgAcc.learning_rate * cfgAcc.learning_rate_decay ^ 2) := by
  obtain ⟨st, hst⟩ := runEpochs_total Sacc cfgAcc (fun k i p => ⟨p + 1, rfl⟩) 2
  rw [hst, lrOf, (lr_decay_uniform Sacc cfgAcc 2 st hst).1]

/-- **C5**: a completed run performs the validation pass exactly once per
epoch and the learning-rate decay step exactly once per epoch, for all
`num_epochs` epochs, in increasing epoch order. -/
theorem val_and_decay_per_epoch (S : Stubs P E) (cfg : Config)
    (r : RunState P × Nat × Nat) (h : run S cfg = Except.ok r) :
    valEpochs r.1.events = List.range cfg.num_epochs ∧
    decayEpochs r.1.events = List.range cfg.num_epochs := by
  obtain ⟨stL, hL, hp⟩ := run_ok_decomp S cfg r h
  obtain ⟨hev, -, -, -, -, -⟩ := runEpochs_ok S cfg cfg.num_epochs stL hL
  obtain ⟨-, hev2, -, -, -⟩ := postLoop_ok S cfg stL r hp
  constructor
  · rw [hev2, valEpochs_append, hev, valEpochs_eventsSpec, valEpochs_postBlock,
        List.append_nil]
  · rw [hev2, decayEpochs_append, hev, decayEpochs_eventsSpec, decayEpochs_postBlock,
        List.append_nil]

theorem val_and_decay_per_epoch_witness :
    valEpochsOf (run Sacc cfgAcc) = some (List.range 2) := by
  obtain ⟨r, hr⟩ := run_total Sacc cfgAcc (fun k i p => ⟨p + 1, rfl⟩)
    (fun _ => updCount_ne_zero_of Sacc cfgAcc 0 (by decide)
      ⟨rfl, by norm_num [bestSpec, accAt, valCorrect, valTotal, Sacc, accPass]⟩)
  rw [hr, valEpochsOf, (val_and_decay_per_epoch Sacc cfgAcc r hr).1]
  rfl

/-- **C1** (amended): with early stopping enabled, the best-checkpoint record
(best value and saved snapshot) updates in epoch `k` iff epoch `k`'s
validation accuracy is strictly greater than every prior epoch's accuracy
*and* strictly greater than the initial best value `0.0`; on a tie or
decrease nothing updates, and it updates at most once per epoch. -/
theorem best_update_iff (S : Stubs P E) (cfg : Config) (r : RunState P × Nat × Nat)
    (he : cfg.e_stop = true) (k : Nat) (hk : k < cfg.num_epochs)
    (h : run S cfg = Except.ok r) :
    (Event.bestSaveEv k ∈ r.1.events ↔
      (0 < accAt S k ∧ ∀ j, j < k → accAt S j < accAt S k)) ∧
    r.1.events.count (Event.bestSaveEv k) ≤ 1 := by
  obtain ⟨stL, hL, hp⟩ := run_ok_decomp S cfg r h
  obtain ⟨hev, -, -, -, -, -⟩ := runEpochs_ok S cfg cfg.num_epochs stL hL
  obtain ⟨-, hev2, -, -, -⟩ := postLoop_ok S cfg stL r hp
  have hcount : r.1.events.count (Event.bestSaveEv k)
      = if k < cfg.num_epochs ∧ cfg.e_stop ∧ bestSpec S k < accAt S k then 1 else 0 := by
    rw [hev2, List.count_append, hev, count_bestSave_eventsSpec, count_bestSave_postBlock,
        Nat.add_zero]
  constructor
  · rw [← List.count_pos_iff, hcount]
    constructor
    · intro hpos
      have hc : bestSpec S k < accAt S k := by
        by_contra hc
        simp [hc] at hpos
      exact (bestSpec_lt_iff S (accAt S k) k).mp hc
    · intro hrhs
      have hc := (bestSpec_lt_iff S (accAt S k) k).mpr hrhs
      simp [hk, he, hc]
  · rw [hcount]
    split <;> omega

theorem best_update_iff_witness :
    bestSaveCount 0 (run Sacc cfgAcc) = some 1 := by
  obtain ⟨r, hr⟩ := run_total Sacc cfgAcc (fun k i p => ⟨p + 1, rfl⟩)
    (fun _ => updCount_ne_zero_of Sacc cfgAcc 0 (by decide)
      ⟨rfl, by norm_num [bestSpec, accAt, valCorrect, valTotal, Sacc, accPass]⟩)
  obtain ⟨hiff, hle⟩ := best_update_iff Sacc cfgAcc r rfl 0 (by decide) hr
  have hmem : Event.bestSaveEv 0 ∈ r.1.events := by
    refine hiff.mpr ⟨by norm_num [accAt, valCorrect, valTotal, Sacc, accPass], ?_⟩
    intro j hj
    exact absurd hj (Nat.not_lt_zero j)
  have hpos := List.count_pos_iff.mpr hmem
  have hone : r.1.events.count (Event.bestSaveEv 0) = 1 := by omega
  rw [hr, bestSaveCount, hone]

/-- **C1** as literally stated fails on the code: in the run of `Sz01`
(accuracies `0` then `1/2`, early stopping on), epoch 0 has no prior epochs,
so its accuracy is vacuously strictly greater than every prior epoch's
accuracy and the claim requires an update; but the code compares against the
initial `best_validation_acc = 0.0` with strict `>`, `0 > 0` fails, and no
best-checkpoint update happens in epoch 0. -/
theorem best_update_iff_counterexample :
    bestSaveCount 0 (run Sz01 cfgZ01) = some 0 := by
  obtain ⟨r, hr⟩ := run_total Sz01 cfgZ01 (fun k i p => ⟨p + 1, rfl⟩)
    (fun _ => updCount_ne_zero_of Sz01 cfgZ01 1 (by decide)
      ⟨rfl, by norm_num [bestSpec, accAt, valCorrect, valTotal, Sz01, accPass]⟩)
  obtain ⟨stL, hL, hp⟩ := run_ok_decomp Sz01 cfgZ01 r hr
  obtain ⟨hev, -, -, -, -, -⟩ := runEpochs_ok Sz01 cfgZ01 _ stL hL
  obtain ⟨-, hev2, -, -, -⟩ := postLoop_ok Sz01 cfgZ01 stL r hp
  have hno : ¬ bestSpec Sz01 0 < accAt Sz01 0 := by
    norm_num [bestSpec, accAt, valCorrect, valTotal, Sz01, accPass]
  have hcount : r.1.events.count (Event.bestSaveEv 0) = 0 := by
    rw [hev2, List.count_append, hev, count_bestSave_eventsSpec, count_bestSave_postBlock]
    simp [hno]
  rw [hr, bestSaveCount, hcount]

/-- **C6**: each validation pass starts from counters reset to zero,
accumulates correct/total over the entire validation sequence, produces
`accuracy = correct / total`, and runs right after `model.eval()` and
entering `torch.no_grad()`. -/
theorem validation_pass_accumulates (S : Stubs P E) (cfg : Config)
    (r : RunState P × Nat × Nat) (k : Nat)
    (h : run S cfg = Except.ok r) (hk : k < cfg.num_epochs) :
    accPass (S.valBatches k) 0 0
      = (((S.valBatches k).map Batch.correct).sum,
         ((S.valBatches k).map Batch.size).sum) ∧
    accAt S k = ((((S.valBatches k).map Batch.correct).sum : ℚ)
      / (((S.valBatches k).map Batch.size).sum : ℚ)) ∧
    ∃ pre post, r.1.events
      = pre ++ (Event.evalModeEv :: Event.noGradEv ::
          Event.valPassEv k (valCorrect S k) (valTotal S k) :: post) := by
  have hsum := accPass_sums (S.valBatches k) 0 0
  simp only [Nat.zero_add] at hsum
  refine ⟨hsum, by rw [accAt, valCorrect, valTotal, hsum], ?_⟩
  obtain ⟨stL, hL, hp⟩ := run_ok_decomp S cfg r h
  obtain ⟨hev, -, -, -, -, -⟩ := runEpochs_ok S cfg cfg.num_epochs stL hL
  obtain ⟨-, hev2, -, -, -⟩ := postLoop_ok S cfg stL r hp
  obtain ⟨pre, post, hsplit⟩ := eventsSpec_split S cfg k cfg.num_epochs hk
  refine ⟨pre ++ [Event.lrDecayEv k],
    ((if cfg.e_stop ∧ bestSpec S k < accAt S k then [Event.bestSaveEv k] else [])
      ++ ([Event.trainModeEv] ++ (post ++ postBlock cfg r.2.1 r.2.2))), ?_⟩
  rw [hev2, hev, hsplit, epochBlock]
  simp [List.append_assoc]

theorem validation_pass_accumulates_witness :
    accPass (Sacc.valBatches 0) 0 0
      = (((Sacc.valBatches 0).map Batch.correct).sum,
         ((Sacc.valBatches 0).map Batch.size).sum) := by
  obtain ⟨r, hr⟩ := run_total Sacc cfgAcc (fun k i p => ⟨p + 1, rfl⟩)
    (fun _ => updCount_ne_zero_of Sacc cfgAcc 0 (by decide)
      ⟨rfl, by norm_num [bestSpec, accAt, valCorrect, valTotal, Sacc, accPass]⟩)
  exact (validation_pass_accumulates Sacc cfgAcc r 0 hr (by decide)).1

/-- **C2**: over a test sequence of 200-example batches (the script's batch
size) with at least five batches, accumulation stops exactly when `total`
reaches 1000 — even though batches remain — and the final counters are those
of the five-batch prefix, so the reported accuracy is `correct / 1000` over
exactly that truncated total. -/
theorem testPass_truncates (bs : List Batch)
    (h200 : ∀ b ∈ bs, b.size = 200) (h5 : 5 ≤ bs.length) :
    testPass bs 0 0 = (((bs.take 5).map Batch.correct).sum, 1000) := by
  rcases bs with _ | ⟨b1, _ | ⟨b2, _ | ⟨b3, _ | ⟨b4, _ | ⟨b5, rest⟩⟩⟩⟩⟩
  · simp at h5
  · simp at h5
  · simp at h5
  · simp at h5
  · simp at h5
  · have s1 : b1.size = 200 := h200 b1 (by simp)
    have s2 : b2.size = 200 := h200 b2 (by simp)
    have s3 : b3.size = 200 := h200 b3 (by simp)
    have s4 : b4.size = 200 := h200 b4 (by simp)
    have s5 : b5.size = 200 := h200 b5 (by simp)
    simp only [testPass, s1, s2, s3, s4, s5]
    norm_num [List.take_succ_cons, Prod.ext_iff]
    omega

theorem testPass_truncates_witness :
    5 ≤ Sacc.testBatches.length ∧ testPass Sacc.testBatches 0 0 = (600, 1000) := by
  refine ⟨by decide, ?_⟩
  rw [testPass_truncates Sacc.testBatches (by decide) (by decide)]
  decide

/-- **C8**: an exception raised inside a delegated training call (forward,
loss, backward, or optimizer step) is caught nowhere: it propagates
unmodified out of the run — no retry, no partial handling — and the process
terminates abnormally (non-zero exit code). -/
theorem train_failure_aborts (S : Stubs P E) (cfg : Config) (k j : Nat)
    (st : RunState P) (p : P) (e : E)
    (hk : k < cfg.num_epochs) (hj : j < S.numTrainBatches)
    (hreach : runEpochs S cfg k = Except.ok st)
    (hpart : runTrainBatchesAux S k 0 j st.model = Except.ok p)
    (hfail : S.trainBatch k j p = Except.error e) :
    run S cfg = Except.error (RunError.stub e) ∧ exitCode (run S cfg) ≠ 0 := by
  have hTB := runTrainBatches_error S k j st.model p e hj hpart hfail
  have hstep : epochStep S cfg k st = Except.error (RunError.stub e) := by
    rw [epochStep, hTB]
  have hk1 : runEpochs S cfg (k + 1) = Except.error (RunError.stub e) := by
    rw [runEpochs, hreach]
    exact hstep
  have hall := runEpochs_error_mono S cfg (k + 1) (RunError.stub e) hk1 cfg.num_epochs
    (by omega)
  have hrun := run_error_of_runEpochs S cfg (RunError.stub e) hall
  refine ⟨hrun, ?_⟩
  rw [hrun]
  simp [exitCode]

theorem train_failure_aborts_witness :
    run Sfail cfgF = Except.error (RunError.stub 7) ∧ exitCode (run Sfail cfgF) ≠ 0 :=
  train_failure_aborts Sfail cfgF 0 0 (initState Sfail cfgF) 0 7 (by decide) (by decide)
    rfl rfl rfl

/-- **C10**: with early stopping enabled and every epoch's validation
accuracy equal to 0, the strict comparison against the initial best of `0.0`
never fires, so the loop writes no best-checkpoint file; the post-loop reload
is still attempted on fresh storage and fails with a missing-file error for
the never-written early-stopping checkpoint. -/
theorem zero_acc_reload_fails (S : Stubs P E) (cfg : Config) (stL : RunState P)
    (he : cfg.e_stop = true)
    (hacc : ∀ k, k < cfg.num_epochs → accAt S k = 0)
    (hL : runEpochs S cfg cfg.num_epochs = Except.ok stL) :
    stL.files = [] ∧
    run S cfg = Except.error (RunError.fileNotFound (bestFileName cfg)) := by
  obtain ⟨-, -, -, -, -, hfiles⟩ := runEpochs_ok S cfg cfg.num_epochs stL hL
  rw [updCount_of_zero_acc S cfg hacc] at hfiles
  have hnil : stL.files = [] := by
    have := hfiles
    rw [List.replicate] at this
    exact List.map_eq_nil_iff.mp this
  refine ⟨hnil, ?_⟩
  rw [run, hL]
  exact postLoop_fileNotFound S cfg stL he (by rw [hnil]; rfl)

theorem zero_acc_reload_fails_witness :
    run Sz cfgZ = Except.error (RunError.fileNotFound (bestFileName cfgZ)) := by
  obtain ⟨stL, hL⟩ := runEpochs_total Sz cfgZ (fun k i p => ⟨p + 1, rfl⟩) cfgZ.num_epochs
  refine (zero_acc_reload_fails Sz cfgZ stL rfl ?_ hL).2
  intro k hk
  have hk0 : k = 0 := by simpa [cfgZ, Nat.lt_one_iff] using hk
  subst hk0
  norm_num [accAt, valCorrect, valTotal, Sz, accPass]

theorem modelCkpt_ne_afterTrain (cfg : Config) :
    FileName.modelCkpt ≠ afterTrainFileName cfg := by
  simp [afterTrainFileName]

/-- **C3**: after the epoch loop a final parameter snapshot is persisted —
`model.ckpt` holds the parameters the run ends with, and with early stopping
the after-training file additionally holds the loop-end parameters; the
best-checkpoint snapshot is reloaded (overwriting the in-memory parameters)
before the test pass iff early stopping is enabled; with it disabled the
loop writes no best-checkpoint file and no reload happens before testing. -/
theorem post_loop_save_reload (S : Stubs P E) (cfg : Config) (stL : RunState P)
    (r : RunState P × Nat × Nat)
    (hL : runEpochs S cfg cfg.num_epochs = Except.ok stL)
    (hp : postLoop S cfg stL = Except.ok r) :
    lookupFile r.1.files FileName.modelCkpt = some r.1.model ∧
    (cfg.e_stop = true →
      ∃ best, lookupFile stL.files (bestFileName cfg) = some best ∧
        r.1.model = best ∧
        lookupFile r.1.files (afterTrainFileName cfg) = some stL.model ∧
        r.1.events = stL.events ++ [Event.evalModeEv, Event.afterTrainSaveEv,
          Event.bestLoadEv, Event.noGradEv, Event.testEv r.2.1 r.2.2, Event.ckptSaveEv]) ∧
    (cfg.e_stop = false →
      stL.files = [] ∧ (∀ j, Event.bestSaveEv j ∉ stL.events) ∧
      r.1.model = stL.model ∧
      r.1.files = [(FileName.modelCkpt, stL.model)] ∧
      r.1.events = stL.events ++ [Event.evalModeEv, Event.noGradEv,
        Event.testEv r.2.1 r.2.2, Event.ckptSaveEv]) := by
  obtain ⟨-, hev2, -, htrue, hfalse⟩ := postLoop_ok S cfg stL r hp
  obtain ⟨hev, -, -, -, -, hfiles⟩ := runEpochs_ok S cfg cfg.num_epochs stL hL
  cases he : cfg.e_stop with
  | true =>
    obtain ⟨best, hbestl, hmodel, hfiles2⟩ := htrue he
    refine ⟨?_, fun _ => ⟨best, hbestl, hmodel, ?_, ?_⟩,
      fun hf => Bool.noConfusion hf⟩
    · rw [hfiles2, lookupFile, if_pos rfl, hmodel]
    · rw [hfiles2, lookupFile, if_neg (modelCkpt_ne_afterTrain cfg), lookupFile,
        if_pos rfl]
    · rw [hev2]
      simp [postBlock, he]
  | false =>
    obtain ⟨hmodel, hfiles2⟩ := hfalse he
    have hupd := updCount_of_estop_false S cfg he cfg.num_epochs
    rw [hupd] at hfiles
    have hnil : stL.files = [] := List.map_eq_nil_iff.mp (by rw [hfiles]; rfl)
    refine ⟨?_, fun ht => Bool.noConfusion ht,
      fun _ => ⟨hnil, ?_, hmodel, ?_, ?_⟩⟩
    · rw [hfiles2, hmodel, lookupFile, if_pos rfl]
    · intro j
      rw [hev]
      intro hmem
      have hpos := List.count_pos_iff.mpr hmem
      rw [count_bestSave_eventsSpec, he] at hpos
      simp at hpos
    · rw [hfiles2, hnil]
    · rw [hev2]
      simp [postBlock, he]

theorem post_loop_save_reload_witness : ckptHoldsFinal (run Sacc cfgAcc) := by
  obtain ⟨r, hr⟩ := run_total Sacc cfgAcc (fun k i p => ⟨p + 1, rfl⟩)
    (fun _ => updCount_ne_zero_of Sacc cfgAcc 0 (by decide)
      ⟨rfl, by norm_num [bestSpec, accAt, valCorrect, valTotal, Sacc, accPass]⟩)
  obtain ⟨stL, hL, hp⟩ := run_ok_decomp Sacc cfgAcc r hr
  rw [hr, ckptHoldsFinal]
  exact (post_loop_save_reload Sacc cfgAcc stL r hL hp).1

/-- **C7**: the `{epochs = 2, decay = 0.95, early_stop = true}` scenario with
validation accuracies `0.55` then `0.40` (decreasing): the best checkpoint is
written exactly once, at epoch 0, and the pre-test reload restores the
epoch-0 parameter snapshot (`3` — the parameters after epoch 0's training),
not the final loop parameters (`6`, still persisted in the after-training
file). -/
theorem scenario_decreasing_acc :
    ∃ r, run S7 cfg7 = Except.ok r ∧
      r.1.events.count (Event.bestSaveEv 0) = 1 ∧
      r.1.events.count (Event.bestSaveEv 1) = 0 ∧
      modelAfter S7 1 = Except.ok 3 ∧
      modelAfter S7 2 = Except.ok 6 ∧
      r.1.model = 3 ∧
      lookupFile r.1.files (afterTrainFileName cfg7) = some 6 := by
  have hc0 : bestSpec S7 0 < accAt S7 0 := by
    norm_num [bestSpec, accAt, valCorrect, valTotal, S7, accPass]
  have hb1 : bestSpec S7 1 = accAt S7 0 := by
    rw [bestSpec]
    exact max_eq_right (le_of_lt hc0)
  have hc1 : ¬ bestSpec S7 1 < accAt S7 1 := by
    rw [hb1]
    norm_num [accAt, valCorrect, valTotal, S7, accPass]
  obtain ⟨r, hr⟩ := run_total S7 cfg7 (fun k i p => ⟨p + 1, rfl⟩)
    (fun _ => updCount_ne_zero_of S7 cfg7 0 (by decide) ⟨rfl, hc0⟩)
  obtain ⟨stL, hL, hp⟩ := run_ok_decomp S7 cfg7 r hr
  obtain ⟨hev, -, -, -, hmodelL, -⟩ := runEpochs_ok S7 cfg7 cfg7.num_epochs stL hL
  obtain ⟨-, hev2, -, htrue, -⟩ := postLoop_ok S7 cfg7 stL r hp
  obtain ⟨best, hbestl, hmodel, hfiles2⟩ := htrue rfl
  have hcnt0 : r.1.events.count (Event.bestSaveEv 0) = 1 := by
    rw [hev2, List.count_append, hev, count_bestSave_eventsSpec, count_bestSave_postBlock,
        Nat.add_zero, if_pos ⟨by decide, rfl, hc0⟩]
  have hcnt1 : r.1.events.count (Event.bestSaveEv 1) = 0 := by
    rw [hev2, List.count_append, hev, count_bestSave_eventsSpec, count_bestSave_postBlock,
        Nat.add_zero, if_neg (fun hx => hc1 hx.2.2)]
  obtain ⟨j, hj, hcj, hmj⟩ := runEpochs_bestFile S7 cfg7 cfg7.num_epochs stL hL best hbestl
  have hj2 : j < 2 := hj
  have hj0 : j = 0 := by
    by_contra hne
    have hj1 : j = 1 := by omega
    rw [hj1] at hcj
    exact hc1 hcj.2
  rw [hj0] at hmj
  have hbest3 : best = 3 := by
    have h3 : modelAfter S7 (0 + 1) = Except.ok 3 := rfl
    have := hmj.symm.trans h3
    injection this
  have hstL6 : stL.model = 6 := by
    have h6 : modelAfter S7 cfg7.num_epochs = Except.ok 6 := rfl
    have := hmodelL.symm.trans h6
    injection this
  refine ⟨r, hr, hcnt0, hcnt1, rfl, rfl, hmodel.trans hbest3, ?_⟩
  rw [hfiles2, lookupFile, if_neg (modelCkpt_ne_afterTrain cfg7), lookupFile, if_pos rfl,
      hstL6]

/-- **C9**: for `ConvNet(input_size, hidden_layers, num_classes, norm_layer,
drop_out)` with at least five hidden sizes, the layer sequence is exactly:
for each of the first five sizes in order, a 3x3 stride-1 padding-1
convolution from the previous channel count (starting at `input_size`) to
that size, then a batch-norm iff `norm_layer` is truthy, then a 2x2 stride-2
max-pool, then a ReLU, then a dropout with probability `drop_out` iff
`drop_out` is not `None`; followed by a flatten and a single linear layer
from the last entry of `hidden_layers` to `num_classes`, and nothing else. -/
theorem convnet_layer_structure (input_size num_classes : Nat) (norm_layer : Bool)
    (drop_out : Option ℚ) (a b c d e lastH : Nat) (rest : List Nat)
    (hlast : (a :: b :: c :: d :: e :: rest).getLast? = some lastH) :
    ConvNet.init input_size (a :: b :: c :: d :: e :: rest) num_classes norm_layer drop_out
      = some (specBlock input_size a norm_layer drop_out
          ++ (specBlock a b norm_layer drop_out
          ++ (specBlock b c norm_layer drop_out
          ++ (specBlock c d norm_layer drop_out
          ++ (specBlock d e norm_layer drop_out
          ++ [Layer.flatten, Layer.linear lastH num_classes]))))) := by
  rw [ConvNet.init, hlast]
  cases norm_layer <;> rcases drop_out with _ | p <;>
    simp [buildLayers, specBlock, List.take_succ_cons]

theorem convnet_layer_structure_witness :
    ConvNet.init 3 [128, 512, 512, 512, 512, 512] 10 true none
      = some (specBlock 3 128 true none
          ++ (specBlock 128 512 true none
          ++ (specBlock 512 512 true none
          ++ (specBlock 512 512 true none
          ++ (specBlock 512 512 true none
          ++ [Layer.flatten, Layer.linear 512 10]))))) :=
  convnet_layer_structure 3 10 true none 128 512 512 512 512 512 [512] (by decide)

end CNN
